import Mathlib

/-!
Verification of the decision logic of the RM-01 CFe-B card maker
(`src/main.py`): disk classification (`find_target_cfeb_card`,
`find_rminte_models_disk`), manufacturer classification (the folder-name
rules inside `scan_models`), backend resolution (`auto_detect_backend`)
and manufacturer filtering (`filter_models_by_manufacturer`).

The Python code is shallowly embedded: subprocess calls (`blkid`,
`lsblk`, `findmnt`) and `os.path.exists` are abstracted as functions in
an environment record; everything else is translated operation by
operation.  Python strings become `String`, `x in s` becomes a decidable
contiguous-sublist test on `String.data`, `s.strip()` / `s.strip(cs)` /
`s.split(sep, 1)` / `s.split()` and the regex split on runs of
comma/full-width-comma/whitespace are translated as explicit `List Char`
operations.
-/

/-- Python's substring test `pat in s` (contiguous occurrence). -/
def sContains (s pat : String) : Bool := decide (pat.data <:+: s.data)

/-- Python's `s.upper()` (ASCII case mapping, as `Char.toUpper`).  Defined
over `String.data` because core's `String.map` does not reduce in the
kernel. -/
def pyUpper (s : String) : String := String.mk (s.data.map Char.toUpper)

/-- Python's `s.lower()` (ASCII case mapping, as `Char.toLower`). -/
def pyLower (s : String) : String := String.mk (s.data.map Char.toLower)

/-- Python's `s.startswith(pat)`. -/
def pyStartsWith (s pat : String) : Bool := pat.data.isPrefixOf s.data

/-- Python's ASCII whitespace set used by `str.strip()` / `str.split()`. -/
def wsChar (c : Char) : Bool :=
  c == ' ' || c == '\t' || c == '\n' || c == '\r' || c == '\x0b' || c == '\x0c'

/-- Python's `s.strip(cs)` for an explicit character set `cs`. -/
def pyStripChars (s : String) (cs : List Char) : String :=
  String.mk (((s.data.dropWhile (fun c => cs.contains c)).reverse.dropWhile
    (fun c => cs.contains c)).reverse)

/-- Python's `s.strip()` (whitespace at both ends). -/
def pyStrip (s : String) : String :=
  String.mk (((s.data.dropWhile wsChar).reverse.dropWhile wsChar).reverse)

/-- Python's `s.split(c, 1)[0]`: the part of `s` before the first occurrence of `c`
(all of `s` when `c` does not occur). -/
def upToChar (s : String) (c : Char) : String :=
  String.mk (s.data.takeWhile (fun x => x != c))

/-- Python's `s.split(c, 1)[1]`: the part of `s` after the first occurrence of `c`. -/
def afterChar (s : String) (c : Char) : String :=
  String.mk ((s.data.dropWhile (fun x => x != c)).drop 1)

/-- Helper for run-splitting: accumulates the current token (reversed). -/
def pySplitRunsAux (isSep : Char → Bool) : List Char → List Char → List String
  | [], acc => if acc.isEmpty then [] else [String.mk acc.reverse]
  | c :: cs, acc =>
      if isSep c then
        if acc.isEmpty then pySplitRunsAux isSep cs []
        else String.mk acc.reverse :: pySplitRunsAux isSep cs []
      else pySplitRunsAux isSep cs (c :: acc)

/-- Split a string on runs of separator characters, dropping empty tokens.
With `isSep := wsChar` this is Python's `s.split()`.  For `re.split` with a
`[...]+` pattern the only difference is possible empty tokens at the two
ends, which the call sites in the source filter away with `if m.strip()`. -/
def pySplitRuns (isSep : Char → Bool) (s : String) : List String :=
  pySplitRunsAux isSep s.data []

/-! ## Manufacturer classification (`scan_models`, src/main.py lines 93-133) -/

/-- The `known_manufacturers` list of `scan_models` (src/main.py line 94). -/
def known_manufacturers : List String :=
  ["Qwen", "GPT", "Llama", "DeepSeek", "Gemma", "ChatGLM", "Baichuan", "InternLM"]

/-- The per-folder classification logic of `scan_models`
(src/main.py lines 100-133): GLM keyword override, then first known
manufacturer the name starts with (stripping the matched name and leading
`_`/`-`, falling back to the whole name when nothing remains), then a
single split on the first `_`, else on the first `-`, else `Others`. -/
def scan_models_classify (item : String) : String × String :=
  if sContains (pyUpper item) "GLM" then ("ZhipuAI", item)
  else
    match known_manufacturers.find? (fun mfg => pyStartsWith item mfg) with
    | some mfg =>
        let remaining :=
          String.mk ((item.data.drop mfg.data.length).dropWhile
            (fun c => c == '_' || c == '-'))
        (mfg, if remaining ≠ "" then remaining else item)
    | none =>
        if item.data.contains '_' then (upToChar item '_', afterChar item '_')
        else if item.data.contains '-' then (upToChar item '-', afterChar item '-')
        else ("Others", item)

/-! ## General helper lemmas -/

/-- Helper: `find?` returns the element at the first index whose predicate holds. -/
theorem find?_eq_some_of_first {α : Type} (p : α → Bool) :
    ∀ (l : List α) (i : Nat) (hi : i < l.length),
      p (l.get ⟨i, hi⟩) = true →
      (∀ j (hj : j < i), p (l.get ⟨j, Nat.lt_trans hj hi⟩) = false) →
      l.find? p = some (l.get ⟨i, hi⟩)
  | a :: t, 0, _, hp, _ => by
      have hp' : p a = true := hp
      simp [List.find?_cons, hp']
  | a :: t, i + 1, hi, hp, hprev => by
      have ha : p a = false := hprev 0 (Nat.succ_pos i)
      have ht := find?_eq_some_of_first p t i (Nat.lt_of_succ_lt_succ hi) hp
        (fun j hj => hprev (j + 1) (Nat.succ_lt_succ hj))
      simpa [List.find?_cons, ha] using ht

/-! ## Claims C4, C5, C6 -/

/-- C4: for every folder name whose upper-cased form contains "GLM",
the classifier returns manufacturer "ZhipuAI" with the model name equal to
the entire original folder name, regardless of any later rule. -/
theorem scan_models_classify_glm (item : String)
    (h : sContains (pyUpper item) "GLM" = true) :
    scan_models_classify item = ("ZhipuAI", item) := by
  simp [scan_models_classify, h]

/-- Witness for C4, at a name that also starts with the known
manufacturer "Qwen" (step 1 takes precedence over prefix matching). -/
theorem scan_models_classify_glm_w :
    sContains (pyUpper "QwenGLM-9B") "GLM" = true ∧
      scan_models_classify "QwenGLM-9B" = ("ZhipuAI", "QwenGLM-9B") :=
  ⟨by decide, scan_models_classify_glm "QwenGLM-9B" (by decide)⟩

/-- C5: a folder name not containing "GLM" (upper-cased) that starts with a
known manufacturer is classified by the first such manufacturer in the fixed
priority order; the model name is the remainder after stripping the matched
name and leading `_`/`-` characters, or the full folder name if empty. -/
theorem scan_models_classify_known (item : String) (i : Nat)
    (hGLM : sContains (pyUpper item) "GLM" = false)
    (hi : i < known_manufacturers.length)
    (hpre : pyStartsWith item (known_manufacturers.get ⟨i, hi⟩) = true)
    (hprev : ∀ j (hj : j < i),
      pyStartsWith item (known_manufacturers.get ⟨j, Nat.lt_trans hj hi⟩) = false) :
    scan_models_classify item =
      (known_manufacturers.get ⟨i, hi⟩,
        let remaining := String.mk
          ((item.data.drop (known_manufacturers.get ⟨i, hi⟩).data.length).dropWhile
            (fun c => c == '_' || c == '-'))
        if remaining ≠ "" then remaining else item) := by
  have hf := find?_eq_some_of_first (fun mfg => pyStartsWith item mfg)
    known_manufacturers i hi hpre hprev
  simp [scan_models_classify, hGLM, hf]

/-- Witness for C5: the spec's example `Qwen_2.5-7B` yields `("Qwen", "2.5-7B")`. -/
theorem scan_models_classify_known_w :
    scan_models_classify "Qwen_2.5-7B" = ("Qwen", "2.5-7B") :=
  (scan_models_classify_known "Qwen_2.5-7B" 0 (by decide) (by decide) (by decide)
    (fun j hj => absurd hj (Nat.not_lt_zero j))).trans (by decide)

/-- C6: a folder name matched by neither the GLM rule nor a known
manufacturer is split on the first underscore if present, else on the
first hyphen if present, with the first part the manufacturer and the
second the model name; with no separator, manufacturer is "Others" and
the model name is the whole folder name.  The function is total, so it
produces a pair for every input. -/
theorem scan_models_classify_fallback (item : String)
    (hGLM : sContains (pyUpper item) "GLM" = false)
    (hpre : ∀ mfg ∈ known_manufacturers, pyStartsWith item mfg = false) :
    scan_models_classify item =
      (if item.data.contains '_' then (upToChar item '_', afterChar item '_')
       else if item.data.contains '-' then (upToChar item '-', afterChar item '-')
       else ("Others", item)) := by
  have hf : known_manufacturers.find? (fun mfg => pyStartsWith item mfg) = none :=
    List.find?_eq_none.mpr (by intro a ha; simp [hpre a ha])
  simp [scan_models_classify, hGLM, hf]

/-- Witness for C6: hyphen split and no-separator default. -/
theorem scan_models_classify_fallback_w :
    scan_models_classify "RandomVendor-Tiny" = ("RandomVendor", "Tiny") ∧
      scan_models_classify "NoSeparatorModel" = ("Others", "NoSeparatorModel") :=
  ⟨(scan_models_classify_fallback "RandomVendor-Tiny" (by decide) (by decide)).trans
      (by decide),
    (scan_models_classify_fallback "NoSeparatorModel" (by decide) (by decide)).trans
      (by decide)⟩

/-! ## Model filtering (`filter_models_by_manufacturer`, src/main.py lines 827-842) -/

/-- One entry of the scanned model list (`scan_models` output dicts). -/
structure ModelEntry where
  manufacturer : String
  model_name : String
  full_name : String
  path : String
deriving DecidableEq

/-- The menu of selectable manufacturers (src/main.py lines 21-29). -/
def MANUFACTURERS : List (String × String) :=
  [("1", "Qwen"), ("2", "GPT"), ("3", "Llama"), ("4", "DeepSeek"),
   ("5", "Gemma"), ("6", "ZhipuAI"), ("7", "Others")]

/-- The filter's own known-manufacturer list (src/main.py line 830); note it
differs from `known_manufacturers` of `scan_models`. -/
def filter_known_manufacturers : List String :=
  ["Qwen", "GPT", "Llama", "DeepSeek", "Gemma", "ZhipuAI"]

/-- Embedding of `filter_models_by_manufacturer` (src/main.py lines 827-842). -/
def filter_models_by_manufacturer (manufacturer : String)
    (models : List ModelEntry) : List ModelEntry :=
  models.filter (fun model =>
    if manufacturer = "Others" then
      !(filter_known_manufacturers.contains model.manufacturer)
    else model.manufacturer == manufacturer)

/-! ## Backend resolution (`auto_detect_backend`, src/main.py lines 757-810) -/

/-- A value of the parsed `backend_list.yaml` mapping: a list of pattern
strings, a single delimited pattern string, or any other YAML value (which
the source's `isinstance` checks skip). -/
inductive ManifestVal where
  | vlist (patterns : List String)
  | vstr (patterns : String)
  | vother
deriving DecidableEq

/-- The separator class of `re.split(r'[,，\letterws]+', ...)`: comma,
full-width comma, or whitespace. -/
def sepChar (c : Char) : Bool := c == ',' || c == '，' || wsChar c

/-- The three-way test of `auto_detect_backend`: exact equality, model name
contained in the pattern, or pattern contained in the model name. -/
def threeWayMatch (model_name m : String) : Bool :=
  model_name == m || sContains m model_name || sContains model_name m

/-- Token list of a string-valued manifest entry (src/main.py lines 796-797):
split the stripped string on runs of comma/full-width-comma/whitespace, keep
non-blank tokens, strip each of whitespace and then of quote characters. -/
def strTokens (s : String) : List String :=
  ((pySplitRuns sepChar (pyStrip s)).filter (fun m => pyStrip m ≠ "")).map
    (fun m => pyStripChars (pyStrip m) ['"', '\x27'])

/-- Whether one manifest entry value matches the model name
(src/main.py lines 785-801): list values are tested pattern by pattern
after stripping quotes; string values are tokenized by `strTokens`;
other values never match. -/
def matchesBackendVal (model_name : String) : ManifestVal → Bool
  | ManifestVal.vlist ms =>
      ms.any (fun m => threeWayMatch model_name (pyStripChars m ['"', '\x27']))
  | ManifestVal.vstr s => (strTokens s).any (fun m => threeWayMatch model_name m)
  | ManifestVal.vother => false

/-- The manifest-scanning loop of `auto_detect_backend`
(src/main.py lines 784-804): first backend key whose value matches, else
the default "FlashAttention". -/
def auto_detect_backend_core (model_name : String)
    (backend_list : List (String × ManifestVal)) : String :=
  match backend_list.find? (fun kv => matchesBackendVal model_name kv.2) with
  | some kv => kv.1
  | none => "FlashAttention"

/-- State of the `backend_list.yaml` file on the master disk: absent,
present but not parseable (the `except` path), or parsed into entries.
An empty or `None` parse is `parsed []`. -/
inductive BackendListFile where
  | missing
  | unparsable
  | parsed (entries : List (String × ManifestVal))

/-- Embedding of `auto_detect_backend` (src/main.py lines 757-810), with the config's
`disk_path` and the manifest-file state as explicit inputs.  An unset
(empty) disk path returns `None` (line 762); a missing or unparsable file
and an empty parse return the default backend. -/
def auto_detect_backend (model_name : String) (disk_path : String)
    (f : BackendListFile) : Option String :=
  if disk_path = "" then none
  else
    some (match f with
      | BackendListFile.missing => "FlashAttention"
      | BackendListFile.unparsable => "FlashAttention"
      | BackendListFile.parsed entries =>
          if entries.isEmpty then "FlashAttention"
          else auto_detect_backend_core model_name entries)

/-! ## Claims C7, C8, C10 -/

/-- C7: for every model name and parsed manifest, the resolver returns the
first backend key, in manifest iteration order, whose value matches the
model name under the three-way test (`matchesBackendVal`: list entries
pattern by pattern, string entries tokenized on comma/full-width
comma/whitespace runs). -/
theorem auto_detect_backend_core_first (model_name : String)
    (entries : List (String × ManifestVal)) (i : Nat)
    (hi : i < entries.length)
    (hmatch : matchesBackendVal model_name (entries.get ⟨i, hi⟩).2 = true)
    (hprev : ∀ j (hj : j < i),
      matchesBackendVal model_name (entries.get ⟨j, Nat.lt_trans hj hi⟩).2 = false) :
    auto_detect_backend_core model_name entries = (entries.get ⟨i, hi⟩).1 := by
  have hf := find?_eq_some_of_first (fun kv => matchesBackendVal model_name kv.2)
    entries i hi hmatch hprev
  simp [auto_detect_backend_core, hf]

/-- Witness for C7: the spec's example (list value, substring containment)
and a string value split on mixed separators. -/
theorem auto_detect_backend_core_first_w :
    auto_detect_backend_core "Qwen2.5-7B-Instruct"
      [("FlashInfer", ManifestVal.vlist ["Qwen2.5-7B"])] = "FlashInfer" ∧
    auto_detect_backend_core "Qwen2.5-7B-Instruct"
      [("FlashAttention", ManifestVal.vlist ["Llama-3"]),
       ("FlashInfer", ManifestVal.vstr "GLM-4,  Qwen2.5-7B，Gemma-2")] = "FlashInfer" :=
  ⟨(auto_detect_backend_core_first "Qwen2.5-7B-Instruct"
      [("FlashInfer", ManifestVal.vlist ["Qwen2.5-7B"])] 0 (by decide) (by decide)
      (fun j hj => absurd hj (Nat.not_lt_zero j))).trans (by decide),
   (auto_detect_backend_core_first "Qwen2.5-7B-Instruct"
      [("FlashAttention", ManifestVal.vlist ["Llama-3"]),
       ("FlashInfer", ManifestVal.vstr "GLM-4,  Qwen2.5-7B，Gemma-2")] 1 (by decide)
      (by decide) (by decide)).trans (by decide)⟩

/-- Counterexample for C8 as stated: with no configured disk path the
source returns `None` (src/main.py line 762) instead of degrading to the
default backend, even though the manifest is then missing. -/
theorem auto_detect_backend_c8_cex :
    auto_detect_backend "Qwen2.5-7B" "" BackendListFile.missing = none ∧
      auto_detect_backend "Qwen2.5-7B" "" BackendListFile.missing ≠
        some "FlashAttention" := by
  constructor
  · rfl
  · intro h
    simp [auto_detect_backend] at h

/-- C8 (amended): provided a disk path is configured (non-empty), the
resolver never returns `None`: a missing, unparsable, or empty manifest,
or one with no matching entry, all yield the default "FlashAttention". -/
theorem auto_detect_backend_default (model_name disk_path : String)
    (hdp : disk_path ≠ "") :
    auto_detect_backend model_name disk_path BackendListFile.missing =
        some "FlashAttention" ∧
    auto_detect_backend model_name disk_path BackendListFile.unparsable =
        some "FlashAttention" ∧
    (∀ entries : List (String × ManifestVal),
      (∀ kv ∈ entries, matchesBackendVal model_name kv.2 = false) →
      auto_detect_backend model_name disk_path (BackendListFile.parsed entries) =
        some "FlashAttention") ∧
    (∀ f : BackendListFile, auto_detect_backend model_name disk_path f ≠ none) := by
  refine ⟨by simp [auto_detect_backend, hdp], by simp [auto_detect_backend, hdp], ?_, ?_⟩
  · intro entries hnone
    have hf : entries.find? (fun kv => matchesBackendVal model_name kv.2) = none :=
      List.find?_eq_none.mpr (by intro kv hkv; simp [hnone kv hkv])
    by_cases he : entries.isEmpty <;>
      simp [auto_detect_backend, auto_detect_backend_core, hdp, hf, he]
  · intro f
    cases f <;> simp [auto_detect_backend, hdp]

/-- Witness for C8 (amended), at a concrete disk path, for a missing file
and for a parsed manifest with no matching entry. -/
theorem auto_detect_backend_default_w :
    auto_detect_backend "UnknownModel" "/mnt/master" BackendListFile.missing =
        some "FlashAttention" ∧
    auto_detect_backend "UnknownModel" "/mnt/master"
        (BackendListFile.parsed [("FlashInfer", ManifestVal.vlist ["Llama-3"])]) =
        some "FlashAttention" :=
  ⟨(auto_detect_backend_default "UnknownModel" "/mnt/master" (by decide)).1,
   (auto_detect_backend_default "UnknownModel" "/mnt/master" (by decide)).2.2.1
     [("FlashInfer", ManifestVal.vlist ["Llama-3"])] (by decide)⟩

/-- C10: filtering by "Others" selects exactly the models whose resolved
manufacturer is outside the filter's fixed known set; filtering by any
other manufacturer selects exactly the models whose manufacturer equals
it; and a model classified as "Baichuan" or "InternLM" (known to the
scanner but not to the filter) is selectable only through the "Others"
menu choice. -/
theorem filter_models_by_manufacturer_c10 (manufacturer : String)
    (models : List ModelEntry) (m : ModelEntry) (hm : m ∈ models) :
    (manufacturer = "Others" →
      (m ∈ filter_models_by_manufacturer manufacturer models ↔
        m.manufacturer ∉ filter_known_manufacturers)) ∧
    (manufacturer ≠ "Others" →
      (m ∈ filter_models_by_manufacturer manufacturer models ↔
        m.manufacturer = manufacturer)) ∧
    ((m.manufacturer = "Baichuan" ∨ m.manufacturer = "InternLM") →
      ∀ choice ∈ MANUFACTURERS.map Prod.snd,
        (m ∈ filter_models_by_manufacturer choice models ↔ choice = "Others")) := by
  refine ⟨?_, ?_, ?_⟩
  · intro h
    subst h
    simp [filter_models_by_manufacturer, List.mem_filter, hm]
  · intro h
    simp [filter_models_by_manufacturer, List.mem_filter, hm, h]
  · intro hB choice hc
    simp only [MANUFACTURERS, List.map_cons, List.map_nil, List.mem_cons,
      List.not_mem_nil, or_false] at hc
    have hnotk : filter_known_manufacturers.contains m.manufacturer = false := by
      rcases hB with h | h <;> simp [filter_known_manufacturers, h]
    rcases hc with h | h | h | h | h | h | h <;> subst h <;>
      rcases hB with h | h <;>
        simp [filter_models_by_manufacturer, List.mem_filter, hm, hnotk, h,
          filter_known_manufacturers]

/-- Witness for C10: a Baichuan-classified model is selected by the
"Others" choice and by no other menu choice. -/
theorem filter_models_by_manufacturer_c10_w :
    (ModelEntry.mk "Baichuan" "7B" "Baichuan-7B" "/m/Baichuan-7B" ∈
      filter_models_by_manufacturer "Others"
        [ModelEntry.mk "Baichuan" "7B" "Baichuan-7B" "/m/Baichuan-7B"]) ∧
    (ModelEntry.mk "Baichuan" "7B" "Baichuan-7B" "/m/Baichuan-7B" ∉
      filter_models_by_manufacturer "Qwen"
        [ModelEntry.mk "Baichuan" "7B" "Baichuan-7B" "/m/Baichuan-7B"]) := by
  constructor
  · exact ((filter_models_by_manufacturer_c10 "Others"
      [ModelEntry.mk "Baichuan" "7B" "Baichuan-7B" "/m/Baichuan-7B"]
      (ModelEntry.mk "Baichuan" "7B" "Baichuan-7B" "/m/Baichuan-7B")
      (by decide)).1 rfl).mpr (by decide)
  · intro hmem
    have h := ((filter_models_by_manufacturer_c10 "Qwen"
      [ModelEntry.mk "Baichuan" "7B" "Baichuan-7B" "/m/Baichuan-7B"]
      (ModelEntry.mk "Baichuan" "7B" "Baichuan-7B" "/m/Baichuan-7B")
      (by decide)).2.1 (by decide)).mp hmem
    exact absurd h (by decide)

/-! ## Target-card discovery (`find_target_cfeb_card`, src/main.py lines 328-430) -/

/-- Abstract device inventory backing `find_target_cfeb_card`:
`devExists` is `os.path.exists` on device/partition paths, `label` is the
volume label that the `blkid` scan yields for a partition path (`""` when
absent, matching `partition_labels.get(name, '')`), and `mount` is
`get_mount_point` (`""` when unmounted).  The source's early `return None`
when `blkid` itself cannot run is outside this embedding. -/
structure DiskEnv where
  devExists : String → Bool
  label : String → String
  mount : String → String

/-- The candidate device paths `/dev/sda` .. `/dev/sdz` built by the scan
loop `for i in range(ord('a'), ord('z') + 1)` (src/main.py lines 337-341). -/
def sdNames : List String :=
  (List.range 26).map (fun i => "/dev/sd" ++ String.singleton (Char.ofNat (97 + i)))

/-- Embedding of `find_target_cfeb_card` (src/main.py lines 328-430): over the existing
`/dev/sd*` devices in order, pick the first whose three partitions exist,
whose models partition does not carry the master-disk sentinel in its label
or mount point, and whose three role keywords each occur (case-insensitively)
in the corresponding partition's label or mount point. -/
def find_target_cfeb_card (env : DiskEnv) : Option String :=
  (sdNames.filter (fun d => env.devExists d)).find? (fun disk_device =>
    let p1 := disk_device ++ "1"
    let p2 := disk_device ++ "2"
    let p3 := disk_device ++ "3"
    if !(env.devExists p1 && env.devExists p2 && env.devExists p3) then false
    else
      let models_label := env.label p2
      let models_mount := env.mount p2
      if sContains models_label "RMinte_Models" || sContains models_label "RMinte_models"
          || sContains models_mount "RMinte_Models" then false
      else
        (sContains (pyLower (env.label p1)) "rootfs" ||
          sContains (pyLower (env.mount p1)) "rootfs") &&
        (sContains (pyLower (env.label p2)) "models" ||
          sContains (pyLower (env.mount p2)) "models") &&
        (sContains (pyLower (env.label p3)) "app" ||
          sContains (pyLower (env.mount p3)) "app"))

/-- Conditions (a) and (b) of claim C1 exactly as the claim states them:
the three indexed partitions exist, and each role keyword occurs
case-insensitively in the partition's label or mount path.  The claim
mentions no master-sentinel exclusion. -/
def c1Qualifies (env : DiskEnv) (d : String) : Bool :=
  (["1", "2", "3"].all (fun i => env.devExists (d ++ i))) &&
  ([("1", "rootfs"), ("2", "models"), ("3", "app")].all (fun ri =>
    sContains (pyLower (env.label (d ++ ri.1))) ri.2 ||
    sContains (pyLower (env.mount (d ++ ri.1))) ri.2))

/-- Operation `findTargetCard` as claim C1 literally describes it: the first
enumerated device satisfying (a) and (b). -/
def c1FindTarget (env : DiskEnv) : Option String :=
  (sdNames.filter (fun d => env.devExists d)).find? (c1Qualifies env)

/-- Claim C1's conditions amended with the master-sentinel exclusion the
source applies (src/main.py lines 397-402). -/
def c1QualifiesAmended (env : DiskEnv) (d : String) : Bool :=
  c1Qualifies env d &&
  !(sContains (env.label (d ++ "2")) "RMinte_Models" ||
    sContains (env.label (d ++ "2")) "RMinte_models" ||
    sContains (env.mount (d ++ "2")) "RMinte_Models")

/-- Operation `findTargetCard` as amended claim C1 describes it. -/
def c1FindTargetAmended (env : DiskEnv) : Option String :=
  (sdNames.filter (fun d => env.devExists d)).find? (c1QualifiesAmended env)

/-- A single device `/dev/sda` whose partitions exist, labeled
`rootfs` / `RMinte_Models` / `app` and unmounted.  All three role keywords
match — `"rminte_models"` contains `"models"` — so conditions (a) and (b)
of claim C1 hold, yet the source skips it as the master disk. -/
def c1CexEnv : DiskEnv where
  devExists := fun s => ["/dev/sda", "/dev/sda1", "/dev/sda2", "/dev/sda3"].contains s
  label := fun s =>
    if s = "/dev/sda1" then "rootfs"
    else if s = "/dev/sda2" then "RMinte_Models"
    else if s = "/dev/sda3" then "app"
    else ""
  mount := fun _ => ""

/-! ## Helper for predicate-wise `find?` rewriting -/

/-- Helper: `find?` only depends on the predicate's values on the list. -/
theorem find?_ext {α : Type} {p q : α → Bool} :
    ∀ l : List α, (∀ a ∈ l, p a = q a) → l.find? p = l.find? q
  | [], _ => rfl
  | a :: t, h => by
      have ha := h a (List.mem_cons_self a t)
      have ht := find?_ext t (fun b hb => h b (List.mem_cons_of_mem a hb))
      simp [List.find?_cons, ha, ht]

/-! ## Claims C1, C2, C9 -/

/-- Counterexample for C1 as stated: `/dev/sda` in `c1CexEnv` is the first
device satisfying conditions (a) and (b) of the claim, yet the code
returns no device. -/
theorem find_target_cfeb_card_c1_cex :
    c1FindTarget c1CexEnv = some "/dev/sda" ∧
      find_target_cfeb_card c1CexEnv = none := by
  constructor
  · decide
  · decide

/-- C1 (amended): `find_target_cfeb_card` returns the first enumerated
existing device satisfying conditions (a), (b) of the claim AND the
master-sentinel exclusion (role-2 label free of `RMinte_Models` /
`RMinte_models` and role-2 mount path free of `RMinte_Models`); it returns
no device exactly when no device qualifies. -/
theorem find_target_cfeb_card_c1_amended (env : DiskEnv) :
    find_target_cfeb_card env = c1FindTargetAmended env := by
  unfold find_target_cfeb_card c1FindTargetAmended
  refine find?_ext _ (fun d _ => ?_)
  simp only [c1QualifiesAmended, c1Qualifies, List.all_cons, List.all_nil]
  generalize env.devExists (d ++ "1") = e1
  generalize env.devExists (d ++ "2") = e2
  generalize env.devExists (d ++ "3") = e3
  generalize sContains (env.label (d ++ "2")) "RMinte_Models" = s1
  generalize sContains (env.label (d ++ "2")) "RMinte_models" = s2
  generalize sContains (env.mount (d ++ "2")) "RMinte_Models" = s3
  cases e1 <;> cases e2 <;> cases e3 <;> cases s1 <;> cases s2 <;> cases s3 <;>
    simp [Bool.and_assoc]

/-- C2: a device whose role-2 (models) partition label contains the
master-disk sentinel `RMinte_Models` — in particular one whose label
equals it exactly — or whose role-2 mount path contains it, is never
returned, even if all three role keywords would pass. -/
theorem find_target_cfeb_card_c2 (env : DiskEnv) (d : String)
    (h : sContains (env.label (d ++ "2")) "RMinte_Models" = true ∨
      sContains (env.mount (d ++ "2")) "RMinte_Models" = true) :
    find_target_cfeb_card env ≠ some d := by
  intro hfind
  unfold find_target_cfeb_card at hfind
  have hp := List.find?_some hfind
  rcases h with h | h <;> simp [h] at hp

/-- A device whose role-2 label equals the master sentinel exactly while
every role keyword would otherwise pass (`"rminte_models"` contains
`"models"`). -/
def c2Env : DiskEnv where
  devExists := fun s => ["/dev/sdb", "/dev/sdb1", "/dev/sdb2", "/dev/sdb3"].contains s
  label := fun s =>
    if s = "/dev/sdb1" then "rootfs"
    else if s = "/dev/sdb2" then "RMinte_Models"
    else if s = "/dev/sdb3" then "app"
    else ""
  mount := fun _ => ""

/-- Witness for C2 at `c2Env`. -/
theorem find_target_cfeb_card_c2_w :
    sContains (c2Env.label ("/dev/sdb" ++ "2")) "RMinte_Models" = true ∧
      find_target_cfeb_card c2Env ≠ some "/dev/sdb" :=
  ⟨by decide, find_target_cfeb_card_c2 c2Env "/dev/sdb" (Or.inl (by decide))⟩

/-- The 26 fixed candidate device names, spelled out. -/
def sd_letter_names : List String :=
  ["/dev/sda", "/dev/sdb", "/dev/sdc", "/dev/sdd", "/dev/sde", "/dev/sdf",
   "/dev/sdg", "/dev/sdh", "/dev/sdi", "/dev/sdj", "/dev/sdk", "/dev/sdl",
   "/dev/sdm", "/dev/sdn", "/dev/sdo", "/dev/sdp", "/dev/sdq", "/dev/sdr",
   "/dev/sds", "/dev/sdt", "/dev/sdu", "/dev/sdv", "/dev/sdw", "/dev/sdx",
   "/dev/sdy", "/dev/sdz"]

/-- C9: the scan enumerates exactly `/dev/sda` .. `/dev/sdz`, in that fixed
alphabetical order, so any returned device is one of those 26 names; a
card exposed under any other device name is never returned. -/
theorem find_target_cfeb_card_c9 :
    sdNames = sd_letter_names ∧
    ∀ (env : DiskEnv) (d : String),
      find_target_cfeb_card env = some d → d ∈ sd_letter_names := by
  have hnames : sdNames = sd_letter_names := by decide
  refine ⟨hnames, fun env d h => ?_⟩
  unfold find_target_cfeb_card at h
  have hmem := List.mem_of_find?_eq_some h
  exact hnames ▸ List.mem_of_mem_filter hmem

/-- A qualifying card at `/dev/sdb` (labels `rootfs`/`models`/`app`). -/
def c9Env : DiskEnv where
  devExists := fun s => ["/dev/sdb", "/dev/sdb1", "/dev/sdb2", "/dev/sdb3"].contains s
  label := fun s =>
    if s = "/dev/sdb1" then "rootfs"
    else if s = "/dev/sdb2" then "models"
    else if s = "/dev/sdb3" then "app"
    else ""
  mount := fun _ => ""

/-- Witness for C9: a concrete scan result, shown to lie in the fixed
26-name list. -/
theorem find_target_cfeb_card_c9_w :
    find_target_cfeb_card c9Env = some "/dev/sdb" ∧ "/dev/sdb" ∈ sd_letter_names := by
  have h : find_target_cfeb_card c9Env = some "/dev/sdb" := by decide
  exact ⟨h, find_target_cfeb_card_c9.2 c9Env "/dev/sdb" h⟩

/-! ## Master-disk discovery (`find_rminte_models_disk`, src/main.py lines 146-199)

The source works on the textual output of `blkid` and `lsblk`.  The
embedding keeps that: a partition inventory is rendered into `blkid`-style
and `lsblk`-style lines, and the function is the source's line scanning,
splitting and stripping, operation for operation. -/

/-- One partition as the system exposes it: device path and volume label
(`""` when unlabeled).  Mount points come from the environment's
`get_mount_point` function. -/
structure PartDev where
  name : String
  label : String
deriving DecidableEq

/-- Partition inventory: the partitions (in enumeration order) and the
`get_mount_point` collaborator (`""` when unmounted). -/
structure DiskInv where
  parts : List PartDev
  mnt : String → String

/-- The `blkid` output line for one partition:
`<dev>: LABEL="<label>" TYPE="ext4"`, with the `LABEL` field omitted for
an unlabeled partition. -/
def blkidLine (p : PartDev) : String :=
  if p.label = "" then p.name ++ ": TYPE=\"ext4\""
  else p.name ++ ": LABEL=\"" ++ p.label ++ "\" TYPE=\"ext4\""

/-- The `lsblk -o NAME,LABEL,MOUNTPOINT` output line for one partition:
name, label and mount point separated by whitespace, empty columns
collapsing away (the source splits the line with `str.split()`). -/
def lsblkLine (mnt : String → String) (p : PartDev) : String :=
  p.name ++ (if p.label = "" then "" else " " ++ p.label) ++
    (if mnt p.name = "" then "" else " " ++ mnt p.name)

/-- The `blkid` line test of src/main.py line 156:
`'LABEL="RMinte_Models"' in line or "LABEL='RMinte_Models'" in line`. -/
def blkidMatch (line : String) : Bool :=
  sContains line "LABEL=\"RMinte_Models\"" ||
    sContains line "LABEL=\x27RMinte_Models\x27"

/-- One iteration of the `lsblk` fallback loop (src/main.py lines 174-191):
on a line containing `RMinte_Models`, split on whitespace; with at least 3
fields return the third unless it is `/` (or empty), otherwise resolve the
first field to a device path and return its mount point or the device. -/
def lsblkStep (mnt : String → String) (line : String) : Option String :=
  if sContains line "RMinte_Models" then
    let parts := pySplitRuns wsChar line
    if parts.length ≥ 3 then
      let mount_point := parts.getD 2 ""
      if mount_point ≠ "" ∧ mount_point ≠ "/" then some mount_point
      else
        let device_name := parts.getD 0 ""
        let device := if pyStartsWith device_name "/dev/" then device_name
          else "/dev/" ++ device_name
        let mp := mnt device
        some (if mp ≠ "" then mp else device)
    else none
  else none

/-- Embedding of `find_rminte_models_disk` (src/main.py lines 146-199): first scan the
`blkid` lines for the quoted sentinel label, returning the device's mount
point if mounted else the device path (the device is the part of the line
before the first `:`, stripped); if no `blkid` line matches, scan the
`lsblk` lines with `lsblkStep`; `none` when both scans fail. -/
def find_rminte_models_disk (inv : DiskInv) : Option String :=
  match (inv.parts.map blkidLine).find? blkidMatch with
  | some line =>
      let device := pyStrip (upToChar line ':')
      let mount_point := inv.mnt device
      some (if mount_point ≠ "" then mount_point else device)
  | none => (inv.parts.map (lsblkLine inv.mnt)).findSome? (lsblkStep inv.mnt)

/-! ## Occurrence-crossing helper lemmas -/

/-- A prefix that avoids `c` cannot reach past an occurrence of `c`. -/
theorem prefix_of_append_cons {α : Type} {c : α} :
    ∀ {sub l1 : List α} {l2 : List α}, c ∉ sub → sub <+: l1 ++ c :: l2 → sub <+: l1
  | [], _, _, _, _ => List.nil_prefix
  | s :: ss, [], l2, hc, h => by
      rw [List.nil_append, List.cons_prefix_cons] at h
      obtain ⟨h1, h2⟩ := h
      subst h1
      exact absurd (List.mem_cons_self s ss) hc
  | s :: ss, a :: t, l2, hc, h => by
      rw [List.cons_append, List.cons_prefix_cons] at h
      have ih := prefix_of_append_cons (fun hm => hc (List.mem_cons_of_mem s hm)) h.2
      exact List.cons_prefix_cons.mpr ⟨h.1, ih⟩

/-- A contiguous occurrence of `sub` in `l1 ++ c :: l2` with `c ∉ sub`
lies entirely inside `l1` or entirely inside `l2`. -/
theorem infix_of_append_cons {α : Type} {c : α} :
    ∀ {sub : List α} (l1 : List α) {l2 : List α}, c ∉ sub →
      sub <:+: l1 ++ c :: l2 → sub <:+: l1 ∨ sub <:+: l2
  | sub, [], l2, hc, h => by
      rw [List.nil_append, List.infix_cons_iff] at h
      rcases h with h | h
      · cases sub with
        | nil => exact Or.inl List.nil_infix
        | cons s ss =>
            rw [List.cons_prefix_cons] at h
            obtain ⟨h1, h2⟩ := h
            subst h1
            exact absurd (List.mem_cons_self s ss) hc
      · exact Or.inr h
  | sub, a :: t, l2, hc, h => by
      rw [List.cons_append, List.infix_cons_iff] at h
      rcases h with h | h
      · have hpre := prefix_of_append_cons hc (by rwa [← List.cons_append] at h)
        exact Or.inl ( List.IsPrefix.isInfix hpre)
      · rcases infix_of_append_cons t hc h with h | h
        · exact Or.inl (List.infix_cons h)
        · exact Or.inr h

/-- Extending an occurrence to the left across a prepended list. -/
theorem infix_append_left_of {α : Type} {l r : List α} (x : List α)
    (h : l <:+: r) : l <:+: x ++ r := by
  obtain ⟨s, t, rfl⟩ := h
  exact ⟨x ++ s, t, by simp [List.append_assoc]⟩

/-- Helper: `takeWhile` collects exactly `l1` when all of `l1` satisfies the
predicate and the next element fails it. -/
theorem takeWhile_append_stop {α : Type} (pr : α → Bool) :
    ∀ (l1 : List α) {c : α} (l2 : List α), (∀ x ∈ l1, pr x = true) →
      pr c = false → (l1 ++ c :: l2).takeWhile pr = l1
  | [], c, l2, _, hc => by simp [List.takeWhile_cons, hc]
  | a :: t, c, l2, h, hc => by
      have ha := h a (List.mem_cons_self a t)
      have ih := takeWhile_append_stop pr t l2 (fun x hx => h x (List.mem_cons_of_mem a hx)) hc
      simp [List.takeWhile_cons, ha, ih]

/-- Helper: `dropWhile` keeps a list none of whose elements satisfy the predicate. -/
theorem dropWhile_eq_self_of {α : Type} (pr : α → Bool) :
    ∀ l : List α, (∀ x ∈ l, pr x = false) → l.dropWhile pr = l
  | [], _ => rfl
  | a :: t, h => by simp [List.dropWhile_cons, h a (List.mem_cons_self a t)]

/-- Helper: `find?` over a mapped list when every hit has the same image. -/
theorem find?_map_eq_of_unique {α β : Type} (f : α → β) (pred : β → Bool) :
    ∀ (l : List α) (p : α), p ∈ l → pred (f p) = true →
      (∀ q ∈ l, pred (f q) = true → f q = f p) →
      (l.map f).find? pred = some (f p)
  | [], p, hp, _, _ => absurd hp (List.not_mem_nil p)
  | a :: t, p, hp, hpred, huniq => by
      by_cases ha : pred (f a) = true
      · simp [List.map_cons, List.find?_cons, ha, hpred,
          huniq a (List.mem_cons_self a t) ha]
      · have ha' : pred (f a) = false := by revert ha; cases pred (f a) <;> simp
        have hpt : p ∈ t := by
          rcases List.mem_cons.mp hp with h | h
          · rw [← h] at ha; exact absurd hpred ha
          · exact h
        have ih := find?_map_eq_of_unique f pred t p hpt hpred
          (fun q hq hq2 => huniq q (List.mem_cons_of_mem a hq) hq2)
        simp [List.map_cons, List.find?_cons, ha', ih]

/-! ## Sentinel-occurrence decomposition for rendered lines -/

/-- Unfolding of the substring test to the infix relation. -/
theorem sContains_true_iff {s pat : String} :
    sContains s pat = true ↔ pat.data <:+: s.data := by simp [sContains]

/-- Negative unfolding of the substring test. -/
theorem sContains_false_iff {s pat : String} :
    sContains s pat = false ↔ ¬ (pat.data <:+: s.data) := by simp [sContains]

/-- An occurrence of the sentinel in a `blkid` line lies in the device
name or in the label (the fixed format pieces cannot contain it, and it
cannot cross the `:` or `"` delimiters, which it does not contain). -/
theorem sentinel_in_blkidLine (p : PartDev)
    (h : ("RMinte_Models" : String).data <:+: (blkidLine p).data) :
    ("RMinte_Models" : String).data <:+: p.name.data ∨
      ("RMinte_Models" : String).data <:+: p.label.data := by
  by_cases hl : p.label = ""
  · have hd : (blkidLine p).data = p.name.data ++ ':' :: (" TYPE=\"ext4\"").data := by
      simp [blkidLine, hl, String.data_append]
    rw [hd] at h
    rcases infix_of_append_cons _ (by decide) h with h | h
    · exact Or.inl h
    · exact absurd h (by decide)
  · have hd : (blkidLine p).data =
        p.name.data ++ ':' :: ((" LABEL=".data ++ '"' :: p.label.data) ++
          '"' :: (" TYPE=\"ext4\"").data) := by
      simp [blkidLine, hl, String.data_append]
    rw [hd] at h
    rcases infix_of_append_cons _ (by decide) h with h | h
    · exact Or.inl h
    · rcases infix_of_append_cons _ (by decide) h with h | h
      · rcases infix_of_append_cons _ (by decide) h with h | h
        · exact absurd h (by decide)
        · exact Or.inr h
      · exact absurd h (by decide)

/-- An occurrence of the sentinel in an `lsblk` line lies in the device
name, the label, or the mount point. -/
theorem sentinel_in_lsblkLine (mnt : String → String) (p : PartDev)
    (h : ("RMinte_Models" : String).data <:+: (lsblkLine mnt p).data) :
    ("RMinte_Models" : String).data <:+: p.name.data ∨
      ("RMinte_Models" : String).data <:+: p.label.data ∨
      ("RMinte_Models" : String).data <:+: (mnt p.name).data := by
  by_cases hl : p.label = "" <;> by_cases hm : mnt p.name = ""
  · have hd : (lsblkLine mnt p).data = p.name.data := by
      simp [lsblkLine, hl, hm, String.data_append]
    rw [hd] at h
    exact Or.inl h
  · have hd : (lsblkLine mnt p).data = p.name.data ++ ' ' :: (mnt p.name).data := by
      simp [lsblkLine, hl, hm, String.data_append]
    rw [hd] at h
    rcases infix_of_append_cons _ (by decide) h with h | h
    · exact Or.inl h
    · exact Or.inr (Or.inr h)
  · have hd : (lsblkLine mnt p).data = p.name.data ++ ' ' :: p.label.data := by
      simp [lsblkLine, hl, hm, String.data_append]
    rw [hd] at h
    rcases infix_of_append_cons _ (by decide) h with h | h
    · exact Or.inl h
    · exact Or.inr (Or.inl h)
  · have hd : (lsblkLine mnt p).data =
        p.name.data ++ ' ' :: (p.label.data ++ ' ' :: (mnt p.name).data) := by
      simp [lsblkLine, hl, hm, String.data_append]
    rw [hd] at h
    rcases infix_of_append_cons _ (by decide) h with h | h
    · exact Or.inl h
    · rcases infix_of_append_cons _ (by decide) h with h | h
      · exact Or.inr (Or.inl h)
      · exact Or.inr (Or.inr h)

/-- A device name that survives the source's extraction unchanged: no `:`
(the `split(':')` delimiter) and no whitespace (the `.strip()` targets). -/
def cleanName (q : PartDev) : Bool :=
  q.name.data.all (fun c => c != ':' && !(wsChar c))

/-! ## Claim C3 -/

/-- A partition labeled `RMinte_Models2` — not the sentinel label — and
mounted at `/mnt/data`. -/
def c3CexInv : DiskInv where
  parts := [PartDev.mk "/dev/sdb1" "RMinte_Models2"]
  mnt := fun s => if s = "/dev/sdb1" then "/mnt/data" else ""

/-- Counterexample for C3 as stated: no partition carries the label
`RMinte_Models`, yet the function does not fail — the `lsblk` fallback
matches the sentinel as a substring of the label `RMinte_Models2` and
returns that partition's mount point. -/
theorem find_rminte_models_disk_c3_cex :
    (∀ p ∈ c3CexInv.parts, p.label ≠ "RMinte_Models") ∧
      find_rminte_models_disk c3CexInv = some "/mnt/data" := by
  constructor
  · decide
  · decide

/-- C3 (amended): (1) the function fails (returns no result) whenever no
partition's device name, label, or mount point contains `RMinte_Models`
even as a substring; (2) on an inventory where exactly one partition's
label contains the sentinel — carrying it exactly, with a
delimiter-clean device name and no sentinel inside any device name — the
function returns that partition's mount point if mounted, else its device
path. -/
theorem find_rminte_models_disk_c3_amended (inv : DiskInv) :
    ((∀ q ∈ inv.parts, sContains q.name "RMinte_Models" = false ∧
        sContains q.label "RMinte_Models" = false ∧
        sContains (inv.mnt q.name) "RMinte_Models" = false) →
      find_rminte_models_disk inv = none) ∧
    (∀ p : PartDev, p ∈ inv.parts → p.label = "RMinte_Models" →
      cleanName p = true →
      (∀ q ∈ inv.parts, sContains q.name "RMinte_Models" = false) →
      (∀ q ∈ inv.parts, sContains q.label "RMinte_Models" = true → q = p) →
      find_rminte_models_disk inv =
        some (if inv.mnt p.name ≠ "" then inv.mnt p.name else p.name)) := by
  constructor
  · intro hfree
    have hblkid : (inv.parts.map blkidLine).find? blkidMatch = none := by
      rw [List.find?_eq_none]
      intro line hline hmatch
      obtain ⟨q, hq, rfl⟩ := List.mem_map.mp hline
      obtain ⟨hqn, hql, _⟩ := hfree q hq
      have hS : ("RMinte_Models" : String).data <:+: (blkidLine q).data := by
        simp only [blkidMatch, Bool.or_eq_true, sContains_true_iff] at hmatch
        rcases hmatch with h | h
        · exact List.IsInfix.trans (by decide) h
        · exact List.IsInfix.trans (by decide) h
      rcases sentinel_in_blkidLine q hS with h | h
      · exact (sContains_false_iff.mp hqn) h
      · exact (sContains_false_iff.mp hql) h
    have hlsblk : (inv.parts.map (lsblkLine inv.mnt)).findSome? (lsblkStep inv.mnt)
        = none := by
      rw [List.findSome?_eq_none_iff]
      intro line hline
      obtain ⟨q, hq, rfl⟩ := List.mem_map.mp hline
      obtain ⟨hqn, hql, hqm⟩ := hfree q hq
      have hnotS : sContains (lsblkLine inv.mnt q) "RMinte_Models" = false := by
        rw [sContains_false_iff]
        intro hS
        rcases sentinel_in_lsblkLine inv.mnt q hS with h | h | h
        · exact (sContains_false_iff.mp hqn) h
        · exact (sContains_false_iff.mp hql) h
        · exact (sContains_false_iff.mp hqm) h
      simp [lsblkStep, hnotS]
    simp [find_rminte_models_disk, hblkid, hlsblk]
  · intro p hp hlab hcp hn huniq
    have hlabne : ¬ p.label = "" := by simp [hlab]
    have hname : ∀ c ∈ p.name.data, (c != ':') = true ∧ wsChar c = false := by
      intro c hc
      have h := (by simpa [cleanName, List.all_eq_true] using hcp :
        ∀ c ∈ p.name.data, (c != ':' && !(wsChar c)) = true) c hc
      simp only [Bool.and_eq_true, Bool.not_eq_true'] at h
      exact h
    have hpmatch : blkidMatch (blkidLine p) = true := by
      have hd : (blkidLine p).data =
          p.name.data ++ ((": LABEL=\"" : String).data ++
            (p.label.data ++ ("\" TYPE=\"ext4\"" : String).data)) := by
        simp [blkidLine, hlabne, String.data_append]
      have h1 : ("LABEL=\"RMinte_Models\"" : String).data <:+: (blkidLine p).data := by
        rw [hd, hlab]
        exact infix_append_left_of _ (by decide)
      simp only [blkidMatch, Bool.or_eq_true, sContains_true_iff]
      exact Or.inl h1
    have huniq2 : ∀ q ∈ inv.parts, blkidMatch (blkidLine q) = true →
        blkidLine q = blkidLine p := by
      intro q hq hmatch
      have hS : ("RMinte_Models" : String).data <:+: (blkidLine q).data := by
        simp only [blkidMatch, Bool.or_eq_true, sContains_true_iff] at hmatch
        rcases hmatch with h | h
        · exact List.IsInfix.trans (by decide) h
        · exact List.IsInfix.trans (by decide) h
      rcases sentinel_in_blkidLine q hS with h | h
      · exact absurd h (sContains_false_iff.mp (hn q hq))
      · rw [huniq q hq (sContains_true_iff.mpr h)]
    have hfind := find?_map_eq_of_unique blkidLine blkidMatch inv.parts p hp
      hpmatch huniq2
    have hdev : pyStrip (upToChar (blkidLine p) ':') = p.name := by
      have hd : (blkidLine p).data =
          p.name.data ++ ':' :: ((" LABEL=".data ++ '"' :: p.label.data) ++
            '"' :: (" TYPE=\"ext4\"").data) := by
        simp [blkidLine, hlabne, String.data_append]
      have h1 : upToChar (blkidLine p) ':' = String.mk p.name.data := by
        unfold upToChar
        rw [hd, takeWhile_append_stop _ _ _ (fun x hx => (hname x hx).1) (by decide)]
      rw [h1]
      unfold pyStrip
      have h2 : (String.mk p.name.data).data = p.name.data := rfl
      rw [h2, dropWhile_eq_self_of wsChar _ (fun x hx => (hname x hx).2),
        dropWhile_eq_self_of wsChar _
          (fun x hx => (hname x (List.mem_reverse.mp hx)).2),
        List.reverse_reverse]
    simp [find_rminte_models_disk, hfind, hdev]

/-- A sentinel-free inventory for the first half of the C3 witness. -/
def c3FreeInv : DiskInv where
  parts := [PartDev.mk "/dev/sdc1" "data", PartDev.mk "/dev/sdc2" ""]
  mnt := fun s => if s = "/dev/sdc1" then "/mnt/data" else ""

/-- An inventory whose second partition carries exactly the sentinel
label and is mounted. -/
def c3MasterInv : DiskInv where
  parts := [PartDev.mk "/dev/sdb1" "boot", PartDev.mk "/dev/sdb2" "RMinte_Models"]
  mnt := fun s => if s = "/dev/sdb2" then "/mnt/models" else ""

/-- Witness for C3 (amended): both halves at concrete inventories. -/
theorem find_rminte_models_disk_c3_amended_w :
    find_rminte_models_disk c3FreeInv = none ∧
      find_rminte_models_disk c3MasterInv = some "/mnt/models" :=
  ⟨(find_rminte_models_disk_c3_amended c3FreeInv).1 (by decide),
   ((find_rminte_models_disk_c3_amended c3MasterInv).2
      (PartDev.mk "/dev/sdb2" "RMinte_Models") (by decide) rfl (by decide)
      (by decide) (by decide)).trans (by decide)⟩
